import Mathlib

/-!
Shallow embedding of `src/src/teams.rs` from rfcbot-rs: the rfcbot
configuration model (`RfcbotConfig`), its reaction-policy derivation,
FCP behavior lookups, team enumeration and team validation against an
external GitHub-user store.

`BTreeMap` construction is embedded as insertion into a
strictly-sorted association list (`insertSorted` / `ofDecls`); the
`toml`/serde deserialization of the small leaf structs is embedded by
`Doc` record types whose `Option Bool` fields model present/absent
fields, with `#[serde(default)]` defaulting applied by the parse
functions. Effectful code (the diesel store lookups in
`Team::validate`, the `error!` log, the `expect` panics during
loading) is embedded with explicit effect traces: the queried logins,
the emitted log entries, and `Except` results standing for panics.
-/

namespace Rfcbot

/-- The GitHub reaction enumeration (`github::models::Reaction`), in its
canonical declaration order. -/
inductive Reaction where
  | Upvote
  | Downvote
  | Laugh
  | Hooray
  | Confused
  | Heart
deriving DecidableEq, Repr, Fintype

/-- The canonical enumeration order used by
`ProhibitedReactions::prohibited_reactions`:
`[Upvote, Downvote, Laugh, Hooray, Confused, Heart].iter()`. -/
def canonicalReactions : List Reaction :=
  [.Upvote, .Downvote, .Laugh, .Hooray, .Confused, .Heart]

/-- Rust `struct ProhibitedReactions`: six boolean flags, one per reaction kind. -/
structure ProhibitedReactions where
  up_vote : Bool
  down_vote : Bool
  laugh : Bool
  hooray : Bool
  confused : Bool
  heart : Bool
deriving DecidableEq, Repr

/-- The `#[derive(Default)]` value of `ProhibitedReactions`: all flags false. -/
def ProhibitedReactions.default : ProhibitedReactions :=
  ⟨false, false, false, false, false, false⟩

/-- Embeds `ProhibitedReactions::is_reaction_prohibited`. -/
def ProhibitedReactions.is_reaction_prohibited
    (p : ProhibitedReactions) : Reaction → Bool
  | .Upvote => p.up_vote
  | .Downvote => p.down_vote
  | .Laugh => p.laugh
  | .Hooray => p.hooray
  | .Confused => p.confused
  | .Heart => p.heart

/-- Embeds `ProhibitedReactions::prohibited_reactions`: filter the canonical array
by `is_reaction_prohibited` and collect (into an `ArrayVec` of capacity 6). -/
def ProhibitedReactions.prohibited_reactions
    (p : ProhibitedReactions) : List Reaction :=
  canonicalReactions.filter p.is_reaction_prohibited

/-- Rust `struct ReactionBehaviorConfig`: the per-repository pair of policies. -/
structure ReactionBehaviorConfig where
  issue : ProhibitedReactions
  comment : ProhibitedReactions
deriving DecidableEq, Repr

/-- The `#[derive(Default)]` value of `ReactionBehaviorConfig`. -/
def ReactionBehaviorConfig.default : ReactionBehaviorConfig :=
  ⟨ProhibitedReactions.default, ProhibitedReactions.default⟩

/-- Rust `struct FcpBehavior`: the two per-repository FCP booleans. -/
structure FcpBehavior where
  close : Bool
  postpone : Bool
deriving DecidableEq, Repr

/-- Rust `struct Team`: an ordered list of member logins. -/
structure Team where
  members : List String
deriving DecidableEq, Repr

/-- Embeds `Team::member_logins`: `self.members.iter().map(|s| s.as_str())`. -/
def Team.member_logins (t : Team) : List String :=
  t.members.map (fun s => s)

/-- Rust `struct TeamLabel(pub String)`, ordered by the underlying string. -/
structure TeamLabel where
  label : String
deriving DecidableEq, Repr

/-! ### BTreeMap embedding

A `BTreeMap<String, V>` is embedded as an association list whose keys
are strictly ascending; deserialization of a map inserts the document
entries in declaration order. -/

/-- Embeds `BTreeMap::get` on the association-list embedding. -/
def alistGet {β : Type} (k : String) : List (String × β) → Option β
  | [] => none
  | kv :: rest => if k = kv.1 then some kv.2 else alistGet k rest

/-- The keys of an association list, in entry order. -/
def alistKeys {β : Type} (l : List (String × β)) : List String :=
  l.map Prod.fst

/-- Embeds `BTreeMap::insert` on the sorted association-list embedding: place the
new entry at its ordered position, replacing an equal key. -/
def insertSorted {β : Type} (k : String) (v : β) :
    List (String × β) → List (String × β)
  | [] => [(k, v)]
  | kv :: rest =>
    if k.data < kv.1.data then (k, v) :: kv :: rest
    else if k = kv.1 then (k, v) :: rest
    else kv :: insertSorted k v rest

/-- Build a `BTreeMap` from document entries in declaration order. -/
def ofDecls {β : Type} (decls : List (String × β)) : List (String × β) :=
  decls.foldl (fun acc kv => insertSorted kv.1 kv.2 acc) []

/-- Rust `struct RfcbotConfig`: the three tables. -/
structure RfcbotConfig where
  prohibited_reactions : List (String × ReactionBehaviorConfig)
  fcp_behaviors : List (String × FcpBehavior)
  teams : List (String × Team)
deriving DecidableEq, Repr

/-- Embeds `RfcbotConfig::team_labels`: iterator over the team-table keys. -/
def RfcbotConfig.team_labels (cfg : RfcbotConfig) : List TeamLabel :=
  cfg.teams.map (fun kv => TeamLabel.mk kv.1)

/-- Embeds `RfcbotConfig::teams`: iterator over the (label, team) pairs
(named `teams_list` here because the field takes the source name). -/
def RfcbotConfig.teams_list (cfg : RfcbotConfig) : List (TeamLabel × Team) :=
  cfg.teams.map (fun kv => (TeamLabel.mk kv.1, kv.2))

/-- Embeds `RfcbotConfig::should_ffcp_auto_close`:
`self.fcp_behaviors.get(repo).map(|fcp| fcp.close).unwrap_or_default()`. -/
def RfcbotConfig.should_ffcp_auto_close
    (cfg : RfcbotConfig) (repo : String) : Bool :=
  ((alistGet repo cfg.fcp_behaviors).map FcpBehavior.close).getD false

/-- Embeds `RfcbotConfig::should_ffcp_auto_postpone`. -/
def RfcbotConfig.should_ffcp_auto_postpone
    (cfg : RfcbotConfig) (repo : String) : Bool :=
  ((alistGet repo cfg.fcp_behaviors).map FcpBehavior.postpone).getD false

/-- Embeds `RfcbotConfig::prohibited_issue_reactions`:
`get(repo).map(|rb| rb.issue.prohibited_reactions()).unwrap_or_default()`. -/
def RfcbotConfig.prohibited_issue_reactions
    (cfg : RfcbotConfig) (repo : String) : List Reaction :=
  ((alistGet repo cfg.prohibited_reactions).map
    (fun rb => rb.issue.prohibited_reactions)).getD []

/-- Embeds `RfcbotConfig::prohibited_comment_reactions`. -/
def RfcbotConfig.prohibited_comment_reactions
    (cfg : RfcbotConfig) (repo : String) : List Reaction :=
  ((alistGet repo cfg.prohibited_reactions).map
    (fun rb => rb.comment.prohibited_reactions)).getD []

/-! ### Document model and structural parse

The serde-derived deserializers of the leaf structs are embedded by
`Doc` record types: an `Option Bool` field is `none` when the field is
absent from the source document; `#[serde(default)]` turns absence
into the default value. -/

/-- A `prohibited_reactions.<repo>.issue|comment` section as written in the
document: each of the six fields may be absent. -/
structure ProhibitedReactionsDoc where
  up_vote : Option Bool
  down_vote : Option Bool
  laugh : Option Bool
  hooray : Option Bool
  confused : Option Bool
  heart : Option Bool
deriving DecidableEq, Repr

/-- Deserialize a `ProhibitedReactions`: `#[serde(default)]` on the struct
defaults each absent field to false. -/
def parseProhibitedReactions (d : ProhibitedReactionsDoc) : ProhibitedReactions :=
  { up_vote := d.up_vote.getD false
    down_vote := d.down_vote.getD false
    laugh := d.laugh.getD false
    hooray := d.hooray.getD false
    confused := d.confused.getD false
    heart := d.heart.getD false }

/-- A `prohibited_reactions.<repo>` section: either sub-table may be
entirely absent. -/
structure ReactionBehaviorConfigDoc where
  issue : Option ProhibitedReactionsDoc
  comment : Option ProhibitedReactionsDoc
deriving DecidableEq, Repr

/-- Deserialize a `ReactionBehaviorConfig`: `#[serde(default)]` replaces an
absent sub-table with `ProhibitedReactions::default()`. -/
def parseReactionBehaviorConfig
    (d : ReactionBehaviorConfigDoc) : ReactionBehaviorConfig :=
  { issue := (d.issue.map parseProhibitedReactions).getD ProhibitedReactions.default
    comment := (d.comment.map parseProhibitedReactions).getD ProhibitedReactions.default }

/-- An `fcp_behaviors.<repo>` section: either field may be absent. -/
structure FcpBehaviorDoc where
  close : Option Bool
  postpone : Option Bool
deriving DecidableEq, Repr

/-- Deserialize an `FcpBehavior`: `#[serde(default)]` on each field. -/
def parseFcpBehavior (d : FcpBehaviorDoc) : FcpBehavior :=
  { close := d.close.getD false
    postpone := d.postpone.getD false }

/-- A well-typed `rfcbot.toml` document: the three top-level tables with
their entries in declaration order. -/
structure RfcbotConfigDoc where
  prohibited_reactions : List (String × ReactionBehaviorConfigDoc)
  fcp_behaviors : List (String × FcpBehaviorDoc)
  teams : List (String × Team)
deriving DecidableEq, Repr

/-- Structural parse of a well-typed document into `RfcbotConfig`: each
table's entries are deserialized and inserted into a `BTreeMap` in
declaration order. -/
def parseRfcbotConfig (d : RfcbotConfigDoc) : RfcbotConfig :=
  { prohibited_reactions :=
      ofDecls (d.prohibited_reactions.map
        (fun kv => (kv.1, parseReactionBehaviorConfig kv.2)))
    fcp_behaviors :=
      ofDecls (d.fcp_behaviors.map (fun kv => (kv.1, parseFcpBehavior kv.2)))
    teams := ofDecls d.teams }

/-! ### Validation and loading -/

/-- A row of the external `githubuser` store (`domain::github::GitHubUser`);
only its existence matters to this module. -/
structure GitHubUser where
  id : Int
  login : String
deriving DecidableEq, Repr

/-- A diesel store-lookup failure (`first` reports a missing row as the
`NotFound` error variant). -/
inductive DieselError where
  | notFound
  | databaseError (msg : String)
deriving DecidableEq, Repr

/-- The external user store of `Team::validate`: lookup by login with a
found / not-found / error trichotomy (`notFound` is an error variant). -/
def Store : Type := String → Except DieselError GitHubUser

/-- The debug rendering of a diesel error, as interpolated by the log
line's `{:?}` format. -/
def DieselError.debugStr : DieselError → String
  | .notFound => "NotFound"
  | .databaseError msg => "DatabaseError: " ++ msg

/-- The `error!("unable to find {} in database: {:?}", ...)` line emitted
just before `throw!(why)`. -/
def logMessage (memberLogin : String) (why : DieselError) : String :=
  "unable to find " ++ memberLogin ++ " in database: " ++ why.debugStr

/-- The loop body of `Team::validate`: query each login in order; on the
first failing lookup, emit the error log and throw. Returns the logins
actually queried, the log lines emitted, and the result. -/
def validateGo (store : Store) :
    List String → List String × List String × Except DieselError Unit
  | [] => ([], [], .ok ())
  | memberLogin :: rest =>
    match store memberLogin with
    | .ok _ =>
      let r := validateGo store rest
      (memberLogin :: r.1, r.2.1, r.2.2)
    | .error why => ([memberLogin], [logMessage memberLogin why], .error why)

/-- Embeds `Team::validate`, instrumented with its observable effects: the store
reads performed (in order), the error-log lines emitted, and the
`DashResult` (whose error wraps the diesel error unchanged). -/
def Team.validate (store : Store) (t : Team) :
    List String × List String × Except DieselError Unit :=
  validateGo store t.member_logins

/-- A fatal outcome of the loading phase: the `expect` panic after a parse
failure, or the `expect` panic after a validation failure. -/
inductive LoadError where
  | parsePanic
  | validationPanic (why : DieselError)
deriving DecidableEq, Repr

/-- Embeds `read_rfcbot_cfg_from`: `toml::from_str(input).expect(...)`. The
external TOML deserializer is modelled by its outcome: `none` for a
malformed or type-mismatched document, `some d` for a well-typed one. -/
def read_rfcbot_cfg_from
    (input : Option RfcbotConfigDoc) : Except LoadError RfcbotConfig :=
  match input with
  | none => .error .parsePanic
  | some d => .ok (parseRfcbotConfig d)

/-- Embeds `cfg.teams.values().for_each(|team| team.validate().expect(...))`:
validate each team in table order, panicking at the first failure.
Returns the teams on which `validate` ran, the log lines emitted, and
the outcome. -/
def validateTeams (store : Store) :
    List (String × Team) → List Team × List String × Except LoadError Unit
  | [] => ([], [], .ok ())
  | kv :: rest =>
    match kv.2.validate store with
    | (_, logs, .ok _) =>
      let r := validateTeams store rest
      (kv.2 :: r.1, logs ++ r.2.1, r.2.2)
    | (_, logs, .error why) => ([kv.2], logs, .error (.validationPanic why))

/-- Embeds `read_rfcbot_cfg_validated`: structural parse, then validation of every
team; both phases fatal on failure. Returns the teams on which
`validate` ran, the log lines emitted, and the outcome. -/
def read_rfcbot_cfg_validated (store : Store)
    (input : Option RfcbotConfigDoc) :
    List Team × List String × Except LoadError RfcbotConfig :=
  match read_rfcbot_cfg_from input with
  | .error e => ([], [], .error e)
  | .ok cfg =>
    match validateTeams store cfg.teams with
    | (ts, logs, .ok _) => (ts, logs, .ok cfg)
    | (ts, logs, .error e) => (ts, logs, .error e)

/-- Convenience predicate on the store: the lookup of a login succeeded
(found); `false` covers both not-found and a failing lookup. -/
def storeOk (store : Store) (memberLogin : String) : Bool :=
  match store memberLogin with
  | .ok _ => true
  | .error _ => false


/-! ### Helper lemmas -/

theorem alistKeys_nil {β : Type} : alistKeys ([] : List (String × β)) = [] :=
  rfl

theorem alistKeys_cons {β : Type} (kv : String × β) (l : List (String × β)) :
    alistKeys (kv :: l) = kv.1 :: alistKeys l :=
  rfl

theorem insertSorted_mem_keys {β : Type} (k a : String) (v : β)
    (l : List (String × β)) :
    a ∈ alistKeys (insertSorted k v l) ↔ a = k ∨ a ∈ alistKeys l := by
  induction l with
  | nil => simp [insertSorted, alistKeys]
  | cons kv rest ih =>
    by_cases h1 : k.data < kv.1.data
    · simp [insertSorted, h1, alistKeys_cons, List.mem_cons]
    · by_cases h2 : k = kv.1
      · subst h2
        simp [insertSorted, h1, alistKeys_cons, List.mem_cons]
      · simp only [insertSorted, if_neg h1, if_neg h2, alistKeys_cons,
          List.mem_cons, ih]
        tauto

theorem insertSorted_pairwise {β : Type} (k : String) (v : β)
    (l : List (String × β)) (h : (alistKeys l).Pairwise (· < ·)) :
    (alistKeys (insertSorted k v l)).Pairwise (· < ·) := by
  induction l with
  | nil => simp [insertSorted, alistKeys]
  | cons kv rest ih =>
    rw [alistKeys_cons, List.pairwise_cons] at h
    obtain ⟨hhead, htail⟩ := h
    by_cases h1 : k.data < kv.1.data
    · have h1s : k < kv.1 := String.lt_iff_toList_lt.2 h1
      rw [insertSorted, if_pos h1, alistKeys_cons, alistKeys_cons]
      refine List.Pairwise.cons ?_ (List.Pairwise.cons hhead htail)
      intro b hb
      rcases List.mem_cons.1 hb with hb | hb
      · exact hb ▸ h1s
      · exact lt_trans h1s (hhead b hb)
    · have h1s : ¬ k < kv.1 := fun hc => h1 (String.lt_iff_toList_lt.1 hc)
      by_cases h2 : k = kv.1
      · subst h2
        rw [insertSorted, if_neg h1, if_pos rfl, alistKeys_cons]
        exact List.Pairwise.cons hhead htail
      · rw [insertSorted, if_neg h1, if_neg h2, alistKeys_cons]
        refine List.Pairwise.cons ?_ (ih htail)
        intro b hb
        rcases (insertSorted_mem_keys k b v rest).1 hb with hb | hb
        · exact hb ▸ lt_of_le_of_ne (le_of_not_lt h1s) (fun he => h2 he.symm)
        · exact hhead b hb

theorem ofDecls_loop_pairwise {β : Type} (decls : List (String × β)) :
    ∀ acc : List (String × β), (alistKeys acc).Pairwise (· < ·) →
      (alistKeys (decls.foldl (fun acc kv => insertSorted kv.1 kv.2 acc) acc)).Pairwise
        (· < ·) := by
  induction decls with
  | nil => exact fun acc h => h
  | cons kv rest ih =>
    intro acc h
    exact ih _ (insertSorted_pairwise kv.1 kv.2 acc h)

theorem ofDecls_pairwise {β : Type} (decls : List (String × β)) :
    (alistKeys (ofDecls decls)).Pairwise (· < ·) :=
  ofDecls_loop_pairwise decls [] (by simp [alistKeys_nil])

theorem ofDecls_loop_mem {β : Type} (decls : List (String × β)) :
    ∀ (acc : List (String × β)) (a : String),
      a ∈ alistKeys (decls.foldl (fun acc kv => insertSorted kv.1 kv.2 acc) acc) ↔
        a ∈ alistKeys acc ∨ a ∈ alistKeys decls := by
  induction decls with
  | nil => simp [alistKeys_nil]
  | cons kv rest ih =>
    intro acc a
    rw [List.foldl_cons, ih, insertSorted_mem_keys, alistKeys_cons, List.mem_cons]
    tauto

theorem ofDecls_mem_keys {β : Type} (decls : List (String × β)) (a : String) :
    a ∈ alistKeys (ofDecls decls) ↔ a ∈ alistKeys decls := by
  rw [ofDecls, ofDecls_loop_mem]
  simp [alistKeys_nil]

theorem ofDecls_keys_nodup {β : Type} (decls : List (String × β)) :
    (alistKeys (ofDecls decls)).Nodup :=
  (ofDecls_pairwise decls).imp ne_of_lt

theorem ofDecls_keys_eq_of_perm {β : Type} (d1 d2 : List (String × β))
    (hp : (alistKeys d1).Perm (alistKeys d2)) :
    alistKeys (ofDecls d1) = alistKeys (ofDecls d2) := by
  have s1 := ofDecls_pairwise d1
  have s2 := ofDecls_pairwise d2
  refine List.eq_of_perm_of_sorted ?_ (s1.imp le_of_lt) (s2.imp le_of_lt)
  refine (List.perm_ext_iff_of_nodup (ofDecls_keys_nodup d1)
    (ofDecls_keys_nodup d2)).2 ?_
  intro a
  rw [ofDecls_mem_keys, ofDecls_mem_keys, hp.mem_iff]

theorem team_labels_map_label (cfg : RfcbotConfig) :
    cfg.team_labels.map TeamLabel.label = alistKeys cfg.teams := by
  simp only [RfcbotConfig.team_labels, alistKeys, List.map_map]
  rfl

theorem team_labels_eq_keys_map (cfg : RfcbotConfig) :
    cfg.team_labels = (alistKeys cfg.teams).map TeamLabel.mk := by
  simp only [RfcbotConfig.team_labels, alistKeys, List.map_map]
  rfl

theorem validateGo_all_ok (store : Store) (ls : List String)
    (h : ∀ l ∈ ls, storeOk store l = true) :
    validateGo store ls = (ls, [], .ok ()) := by
  induction ls with
  | nil => rfl
  | cons l rest ih =>
    cases hstore : store l with
    | ok u =>
      simp [validateGo, hstore,
        ih (fun m hm => h m (List.mem_cons_of_mem l hm))]
    | error why =>
      exfalso
      have hl := h l (List.mem_cons_self l rest)
      simp [storeOk, hstore] at hl

theorem validateGo_ok_iff (store : Store) (ls : List String) :
    (validateGo store ls).2.2 = .ok () ↔ ∀ l ∈ ls, storeOk store l = true := by
  induction ls with
  | nil => simp [validateGo]
  | cons l rest ih =>
    cases hstore : store l with
    | ok u => simp [validateGo, hstore, storeOk, ih, List.forall_mem_cons]
    | error why => simp [validateGo, hstore, storeOk, List.forall_mem_cons]

theorem validateGo_first_error (store : Store) (pre post : List String)
    (l : String) (why : DieselError)
    (hpre : ∀ m ∈ pre, storeOk store m = true)
    (hl : store l = .error why) :
    validateGo store (pre ++ l :: post) =
      (pre ++ [l], [logMessage l why], .error why) := by
  induction pre with
  | nil => simp [validateGo, hl]
  | cons m rest ih =>
    cases hstore : store m with
    | ok u =>
      simp [validateGo, hstore,
        ih (fun a ha => hpre a (List.mem_cons_of_mem m ha))]
    | error w =>
      exfalso
      have hm := hpre m (List.mem_cons_self m rest)
      simp [storeOk, hstore] at hm

theorem member_logins_eq_members (t : Team) : t.member_logins = t.members := by
  simp [Team.member_logins]

theorem validate_all_ok (store : Store) (t : Team)
    (h : ∀ l ∈ t.members, storeOk store l = true) :
    t.validate store = (t.members, [], .ok ()) := by
  rw [Team.validate, member_logins_eq_members]
  exact validateGo_all_ok store t.members h

theorem validate_ok_iff (store : Store) (t : Team) :
    (t.validate store).2.2 = .ok () ↔ ∀ l ∈ t.members, storeOk store l = true := by
  rw [Team.validate, member_logins_eq_members]
  exact validateGo_ok_iff store t.members

theorem validateTeams_ok_iff (store : Store) (ts : List (String × Team)) :
    (validateTeams store ts).2.2 = .ok () ↔
      ∀ kv ∈ ts, (kv.2.validate store).2.2 = .ok () := by
  induction ts with
  | nil => simp [validateTeams]
  | cons kv rest ih =>
    match hv : kv.2.validate store with
    | (q, logs, .ok u) =>
      have h2 : (kv.2.validate store).2.2 = .ok () := by rw [hv]
      simp [validateTeams, hv, ih, List.forall_mem_cons, h2]
    | (q, logs, .error why) =>
      have h2 : (kv.2.validate store).2.2 = .error why := by rw [hv]
      simp [validateTeams, hv, List.forall_mem_cons, h2]

theorem validateTeams_all_ok (store : Store) (ts : List (String × Team))
    (h : ∀ kv ∈ ts, (kv.2.validate store).2.2 = .ok ()) :
    validateTeams store ts = (ts.map Prod.snd, [], .ok ()) := by
  induction ts with
  | nil => rfl
  | cons kv rest ih =>
    have hv := h kv (List.mem_cons_self kv rest)
    have hall := (validate_ok_iff store kv.2).1 hv
    rw [validateTeams, validate_all_ok store kv.2 hall]
    simp [ih (fun a ha => h a (List.mem_cons_of_mem kv ha))]

/-! ### Claim theorems -/

/-- C1: For every value of the six reaction flags,
`ProhibitedReactions::prohibited_reactions()` returns exactly the reactions
whose flags are true (membership iff the flag holds), in the canonical
enumeration order (the result is a sublist of
`[Upvote, Downvote, Laugh, Hooray, Confused, Heart]`), with length between
0 and 6; with all six flags at their default (false) it returns the empty
sequence. -/
theorem C1_prohibited_reactions_exact_canonical (p : ProhibitedReactions) :
    (∀ r : Reaction, r ∈ p.prohibited_reactions ↔
      p.is_reaction_prohibited r = true) ∧
    p.prohibited_reactions.Sublist canonicalReactions ∧
    p.prohibited_reactions.length ≤ 6 ∧
    ProhibitedReactions.default.prohibited_reactions = [] := by
  refine ⟨?_, List.filter_sublist _, ?_, by decide⟩
  · intro r
    rw [ProhibitedReactions.prohibited_reactions, List.mem_filter]
    have hr : r ∈ canonicalReactions := by cases r <;> decide
    simp [hr]
  · calc p.prohibited_reactions.length
        ≤ canonicalReactions.length := List.length_filter_le _ _
      _ = 6 := rfl

/-- C2: For every repository identifier that is not a key of the
corresponding table, `should_ffcp_auto_close` and
`should_ffcp_auto_postpone` return false, and
`prohibited_issue_reactions` and `prohibited_comment_reactions` return the
empty sequence: a lookup miss is never an error. -/
theorem C2_lookup_miss_defaults (cfg : RfcbotConfig) (repo : String)
    (hf : alistGet repo cfg.fcp_behaviors = none)
    (hp : alistGet repo cfg.prohibited_reactions = none) :
    cfg.should_ffcp_auto_close repo = false ∧
    cfg.should_ffcp_auto_postpone repo = false ∧
    cfg.prohibited_issue_reactions repo = [] ∧
    cfg.prohibited_comment_reactions repo = [] := by
  refine ⟨?_, ?_, ?_, ?_⟩ <;>
    simp [RfcbotConfig.should_ffcp_auto_close,
      RfcbotConfig.should_ffcp_auto_postpone,
      RfcbotConfig.prohibited_issue_reactions,
      RfcbotConfig.prohibited_comment_reactions, hf, hp]

/-- A configuration with one FCP-behavior entry and one reaction entry,
used to witness the lookup-miss claim on a key that is absent. -/
def demoCfgC2 : RfcbotConfig :=
  { prohibited_reactions :=
      [("foo-org/bar", ⟨⟨false, true, false, false, true, false⟩,
        ⟨false, true, false, false, false, false⟩⟩)]
    fcp_behaviors := [("rust-lang/alpha", ⟨true, true⟩)]
    teams := [] }

/-- C2 witness: on the concrete configuration `demoCfgC2`, the key
"random" misses every table and every accessor returns its default. -/
theorem C2_lookup_miss_defaults_witness :
    demoCfgC2.should_ffcp_auto_close "random" = false ∧
    demoCfgC2.should_ffcp_auto_postpone "random" = false ∧
    demoCfgC2.prohibited_issue_reactions "random" = [] ∧
    demoCfgC2.prohibited_comment_reactions "random" = [] :=
  C2_lookup_miss_defaults demoCfgC2 "random" (by decide) (by decide)

/-- C6: For every Team, `member_logins()` yields the member login strings
exactly in their declaration order, preserving duplicates: the yielded
sequence is the member list itself, for every member list including ones
with repeated logins. -/
theorem C6_member_logins_declaration_order (ms : List String) :
    (Team.mk ms).member_logins = ms := by
  simp [Team.member_logins]

/-- C7: Every optional boolean field that is absent from the source
document parses as false: each of the six reaction flags of a
`ProhibitedReactions` section and the `close` and `postpone` fields of an
`FcpBehavior` section that is present but omits the field. -/
theorem C7_absent_fields_default_false (d : ProhibitedReactionsDoc)
    (f : FcpBehaviorDoc) :
    (d.up_vote = none → (parseProhibitedReactions d).up_vote = false) ∧
    (d.down_vote = none → (parseProhibitedReactions d).down_vote = false) ∧
    (d.laugh = none → (parseProhibitedReactions d).laugh = false) ∧
    (d.hooray = none → (parseProhibitedReactions d).hooray = false) ∧
    (d.confused = none → (parseProhibitedReactions d).confused = false) ∧
    (d.heart = none → (parseProhibitedReactions d).heart = false) ∧
    (f.close = none → (parseFcpBehavior f).close = false) ∧
    (f.postpone = none → (parseFcpBehavior f).postpone = false) := by
  refine ⟨?_, ?_, ?_, ?_, ?_, ?_, ?_, ?_⟩ <;>
    (intro h; simp [parseProhibitedReactions, parseFcpBehavior, h])

/-- C7 witness: a reaction section and an FCP section with every field
absent parse to all-false values. -/
theorem C7_absent_fields_default_false_witness :
    (parseProhibitedReactions ⟨none, none, none, none, none, none⟩).up_vote
      = false ∧
    (parseProhibitedReactions ⟨none, none, none, none, none, none⟩).heart
      = false ∧
    (parseFcpBehavior ⟨none, none⟩).close = false ∧
    (parseFcpBehavior ⟨none, none⟩).postpone = false :=
  ⟨(C7_absent_fields_default_false ⟨none, none, none, none, none, none⟩
      ⟨none, none⟩).1 rfl,
   (C7_absent_fields_default_false ⟨none, none, none, none, none, none⟩
      ⟨none, none⟩).2.2.2.2.2.1 rfl,
   (C7_absent_fields_default_false ⟨none, none, none, none, none, none⟩
      ⟨none, none⟩).2.2.2.2.2.2.1 rfl,
   (C7_absent_fields_default_false ⟨none, none, none, none, none, none⟩
      ⟨none, none⟩).2.2.2.2.2.2.2 rfl⟩

/-- C10: For a repository entry present in the prohibited-reactions table,
an entirely omitted issue (resp. comment) sub-table parses to the fully
permissive default policy, so the corresponding accessor returns the empty
sequence for that repository. -/
theorem C10_omitted_subtable_fully_permissive (cfg : RfcbotConfig)
    (repo : String) (d : ReactionBehaviorConfigDoc)
    (h : alistGet repo cfg.prohibited_reactions =
      some (parseReactionBehaviorConfig d)) :
    (d.issue = none → cfg.prohibited_issue_reactions repo = []) ∧
    (d.comment = none → cfg.prohibited_comment_reactions repo = []) := by
  constructor <;> intro hnone <;>
    simp [RfcbotConfig.prohibited_issue_reactions,
      RfcbotConfig.prohibited_comment_reactions, h,
      parseReactionBehaviorConfig, hnone, ProhibitedReactions.default,
      ProhibitedReactions.prohibited_reactions, canonicalReactions,
      ProhibitedReactions.is_reaction_prohibited]

/-- A configuration whose single reaction entry omits both sub-tables,
used to witness the omitted-sub-table claim. -/
def demoCfgC10 : RfcbotConfig :=
  { prohibited_reactions :=
      [("foo-org/bar", parseReactionBehaviorConfig ⟨none, none⟩)]
    fcp_behaviors := []
    teams := [] }

/-- C10 witness: on `demoCfgC10`, whose entry for "foo-org/bar" omits both
sub-tables, both accessors return the empty sequence. -/
theorem C10_omitted_subtable_fully_permissive_witness :
    demoCfgC10.prohibited_issue_reactions "foo-org/bar" = [] ∧
    demoCfgC10.prohibited_comment_reactions "foo-org/bar" = [] :=
  ⟨(C10_omitted_subtable_fully_permissive demoCfgC10 "foo-org/bar"
      ⟨none, none⟩ (by decide)).1 rfl,
   (C10_omitted_subtable_fully_permissive demoCfgC10 "foo-org/bar"
      ⟨none, none⟩ (by decide)).2 rfl⟩

/-- C3: For every parsed configuration, `team_labels()` and `teams()` yield
entries in ascending lexicographic order of the team label string,
independent of the declaration order in the source document; both
iterations are finite lists visiting each team exactly once (the labels
are strictly ascending, hence duplicate-free, and `teams()` yields the
same labels in the same order). -/
theorem C3_team_iteration_ascending (d1 d2 : RfcbotConfigDoc) :
    ((parseRfcbotConfig d1).team_labels.map TeamLabel.label).Pairwise (· < ·) ∧
    (parseRfcbotConfig d1).team_labels.Nodup ∧
    (parseRfcbotConfig d1).teams_list.map Prod.fst =
      (parseRfcbotConfig d1).team_labels ∧
    ((alistKeys d1.teams).Perm (alistKeys d2.teams) →
      (parseRfcbotConfig d1).team_labels = (parseRfcbotConfig d2).team_labels) := by
  have hteams : ∀ d : RfcbotConfigDoc,
      (parseRfcbotConfig d).teams = ofDecls d.teams := fun _ => rfl
  refine ⟨?_, ?_, ?_, ?_⟩
  · rw [team_labels_map_label, hteams]
    exact ofDecls_pairwise d1.teams
  · rw [team_labels_eq_keys_map, hteams]
    refine (ofDecls_keys_nodup d1.teams).map ?_
    intro a b hab
    exact congrArg TeamLabel.label hab
  · simp only [RfcbotConfig.teams_list, RfcbotConfig.team_labels, List.map_map]
    rfl
  · intro hp
    rw [team_labels_eq_keys_map, team_labels_eq_keys_map, hteams, hteams,
      ofDecls_keys_eq_of_perm d1.teams d2.teams hp]

/-- A document declaring the teams in descending label order. -/
def demoDocTeamsA : RfcbotConfigDoc :=
  ⟨[], [], [("justice-league", ⟨["superman", "wonderwoman"]⟩),
    ("avengers", ⟨["hulk", "thor"]⟩)]⟩

/-- The same teams as `demoDocTeamsA`, declared in the opposite order. -/
def demoDocTeamsB : RfcbotConfigDoc :=
  ⟨[], [], [("avengers", ⟨["hulk", "thor"]⟩),
    ("justice-league", ⟨["superman", "wonderwoman"]⟩)]⟩

/-- C3 witness: the two declaration orders of the same teams parse to the
same label iteration, and the labels come out ascending. -/
theorem C3_team_iteration_ascending_witness :
    (parseRfcbotConfig demoDocTeamsA).team_labels =
      (parseRfcbotConfig demoDocTeamsB).team_labels ∧
    (parseRfcbotConfig demoDocTeamsA).team_labels =
      [⟨"avengers"⟩, ⟨"justice-league"⟩] :=
  ⟨(C3_team_iteration_ascending demoDocTeamsA demoDocTeamsB).2.2.2
      (by decide),
   by decide⟩

/-- A user store that knows a fixed set of superhero logins and reports
every other login as not found. -/
def demoStore : Store := fun memberLogin =>
  if memberLogin = "hulk" ∨ memberLogin = "thor" ∨
      memberLogin = "superman" ∨ memberLogin = "wonderwoman" then
    .ok ⟨1, memberLogin⟩
  else
    .error .notFound

/-- C4: `Team::validate()` fails iff some member lookup is not found or
fails (its result is ok iff every member lookup succeeds); when every
member exists it succeeds with no observable effect beyond the store
reads: the reads are exactly the member list and the log is empty; and a
failing team is fatal to the whole load: the validated configuration
exists iff every team in the table validates. -/
theorem C4_validate_fails_iff_missing (store : Store) (t : Team)
    (d : RfcbotConfigDoc) :
    ((t.validate store).2.2 = .ok () ↔
      ∀ l ∈ t.members, storeOk store l = true) ∧
    ((∀ l ∈ t.members, storeOk store l = true) →
      t.validate store = (t.members, [], .ok ())) ∧
    ((∃ cfg, (read_rfcbot_cfg_validated store (some d)).2.2 = .ok cfg) ↔
      ∀ kv ∈ (parseRfcbotConfig d).teams, (kv.2.validate store).2.2 = .ok ()) := by
  refine ⟨validate_ok_iff store t, validate_all_ok store t, ?_⟩
  simp only [read_rfcbot_cfg_validated, read_rfcbot_cfg_from]
  rw [← validateTeams_ok_iff store (parseRfcbotConfig d).teams]
  rcases hv : validateTeams store (parseRfcbotConfig d).teams with ⟨ts, logs, r⟩
  cases r with
  | ok u => simp [hv]
  | error e => simp [hv]

/-- C4 witness: a team both of whose members the store knows validates
with exactly the two store reads, no log, and a successful result. -/
theorem C4_validate_fails_iff_missing_witness :
    Team.validate demoStore ⟨["hulk", "thor"]⟩ =
      (["hulk", "thor"], [], .ok ()) :=
  (C4_validate_fails_iff_missing demoStore ⟨["hulk", "thor"]⟩
    ⟨[], [], []⟩).2.1 (by decide)

/-- C5 (amended): `Team::validate()` queries the store for each member
login sequentially in declaration order and, on the first login whose
lookup fails or is not found, fails immediately (short-circuit): the
queried logins are exactly the prefix up to and including the offending
login, the emitted log line identifies that login, and the thrown error
is the underlying store-lookup failure itself; the team is not
identified. -/
theorem C5_validate_short_circuit (store : Store) (t : Team)
    (pre post : List String) (memberLogin : String) (why : DieselError)
    (hm : t.members = pre ++ memberLogin :: post)
    (hpre : ∀ m ∈ pre, storeOk store m = true)
    (hl : store memberLogin = .error why) :
    t.validate store =
      (pre ++ [memberLogin], [logMessage memberLogin why], .error why) := by
  rw [Team.validate, member_logins_eq_members, hm]
  exact validateGo_first_error store pre post memberLogin why hpre hl

/-- C5 witness: with "ghost" unknown to the store, validation queries
"hulk" then "ghost", logs the line naming "ghost", skips "thor", and
throws the not-found error. -/
theorem C5_validate_short_circuit_witness :
    Team.validate demoStore ⟨["hulk", "ghost", "thor"]⟩ =
      (["hulk", "ghost"], [logMessage "ghost" .notFound],
        .error .notFound) :=
  C5_validate_short_circuit demoStore ⟨["hulk", "ghost", "thor"]⟩
    ["hulk"] ["thor"] "ghost" .notFound rfl (by decide) rfl

/-- A team whose only member is unknown to every demo store. -/
def ghostTeam : Team := ⟨["ghost"]⟩

/-- A document whose only (failing) team is labelled "avengers". -/
def demoDocLabelA : RfcbotConfigDoc := ⟨[], [], [("avengers", ghostTeam)]⟩

/-- The same document with the failing team labelled "zeta-team". -/
def demoDocLabelB : RfcbotConfigDoc := ⟨[], [], [("zeta-team", ghostTeam)]⟩

/-- A store that reports every login as not found. -/
def emptyStore : Store := fun _ => .error .notFound

/-- C5 counterexample: the full observable load outcome (validated teams,
log lines, error) is identical for two configurations whose failing
teams carry different labels, so the error does not identify the
offending team, contrary to the claim. -/
theorem C5_error_does_not_identify_team :
    read_rfcbot_cfg_validated emptyStore (some demoDocLabelA) =
      read_rfcbot_cfg_validated emptyStore (some demoDocLabelB) ∧
    (read_rfcbot_cfg_validated emptyStore (some demoDocLabelA)).2.2 =
      .error (.validationPanic .notFound) ∧
    demoDocLabelA.teams ≠ demoDocLabelB.teams :=
  ⟨rfl, rfl, by decide⟩

/-- A document declaring one team whose members the demo store knows. -/
def demoDocLoad : RfcbotConfigDoc :=
  ⟨[("foo-org/bar", ⟨some ⟨none, some true, none, none, some true, none⟩,
      some ⟨none, some true, none, none, none, none⟩⟩)],
    [("rust-lang/alpha", ⟨some true, some true⟩)],
    [("avengers", ⟨["hulk", "thor"]⟩)]⟩

/-- C8: Loading is two-phase and both phases are fatal. A structural parse
failure aborts before any validation runs: no team is validated, no log
is emitted, and the outcome is the parse panic. On a successful parse
that loads, the returned configuration is the parsed one, `validate` ran
on every team of its table (in order) before it became available, and
every validation succeeded. -/
theorem C8_two_phase_fatal_loading (store : Store) (d : RfcbotConfigDoc) :
    read_rfcbot_cfg_validated store none = ([], [], .error .parsePanic) ∧
    ∀ cfg, (read_rfcbot_cfg_validated store (some d)).2.2 = .ok cfg →
      cfg = parseRfcbotConfig d ∧
      (read_rfcbot_cfg_validated store (some d)).1 =
        cfg.teams.map Prod.snd ∧
      ∀ kv ∈ cfg.teams, (kv.2.validate store).2.2 = .ok () := by
  refine ⟨rfl, ?_⟩
  intro cfg h
  rcases hv : validateTeams store (parseRfcbotConfig d).teams with ⟨ts, logs, r⟩
  cases r with
  | error e =>
    simp [read_rfcbot_cfg_validated, read_rfcbot_cfg_from, hv] at h
  | ok u =>
    have hok : (validateTeams store (parseRfcbotConfig d).teams).2.2 = .ok () := by
      rw [hv]
    have hall := (validateTeams_ok_iff store (parseRfcbotConfig d).teams).1 hok
    have htr := validateTeams_all_ok store (parseRfcbotConfig d).teams hall
    rw [hv] at htr
    have hts : ts = (parseRfcbotConfig d).teams.map Prod.snd :=
      congrArg (fun x => x.1) htr
    simp only [read_rfcbot_cfg_validated, read_rfcbot_cfg_from, hv,
      Except.ok.injEq] at h ⊢
    subst h
    exact ⟨rfl, hts, hall⟩

/-- C8 witness: on the demo document and store, loading succeeds, the
validation trace covers the single team of the table, and that team
validates. -/
theorem C8_two_phase_fatal_loading_witness :
    parseRfcbotConfig demoDocLoad = parseRfcbotConfig demoDocLoad ∧
    (read_rfcbot_cfg_validated demoStore (some demoDocLoad)).1 =
      (parseRfcbotConfig demoDocLoad).teams.map Prod.snd ∧
    ∀ kv ∈ (parseRfcbotConfig demoDocLoad).teams,
      (kv.2.validate demoStore).2.2 = .ok () :=
  (C8_two_phase_fatal_loading demoStore demoDocLoad).2
    (parseRfcbotConfig demoDocLoad) rfl

/-- C9: After a configuration has been successfully loaded and validated,
every public query is total and error-free for every input string: the
boolean queries yield a boolean, the reaction queries yield sequences of
length at most 6 (within the `ArrayVec` capacity, so the `collect` in
the source cannot panic), and the two team iterations are finite lists
of equal length. -/
theorem C9_queries_total (store : Store) (input : Option RfcbotConfigDoc)
    (cfg : RfcbotConfig)
    (h : (read_rfcbot_cfg_validated store input).2.2 = .ok cfg)
    (repo : String) :
    (cfg.should_ffcp_auto_close repo = true ∨
      cfg.should_ffcp_auto_close repo = false) ∧
    (cfg.should_ffcp_auto_postpone repo = true ∨
      cfg.should_ffcp_auto_postpone repo = false) ∧
    (cfg.prohibited_issue_reactions repo).length ≤ 6 ∧
    (cfg.prohibited_comment_reactions repo).length ≤ 6 ∧
    cfg.teams_list.length = cfg.team_labels.length := by
  have hlen : ∀ (f : ReactionBehaviorConfig → ProhibitedReactions),
      (((alistGet repo cfg.prohibited_reactions).map
        (fun rb => (f rb).prohibited_reactions)).getD []).length ≤ 6 := by
    intro f
    cases alistGet repo cfg.prohibited_reactions with
    | none => exact Nat.zero_le 6
    | some rb =>
      show ((f rb).prohibited_reactions).length ≤ 6
      calc ((f rb).prohibited_reactions).length
          ≤ canonicalReactions.length :=
            List.length_filter_le _ _
        _ = 6 := rfl
  refine ⟨?_, ?_, hlen (fun rb => rb.issue), hlen (fun rb => rb.comment), ?_⟩
  · cases hb : cfg.should_ffcp_auto_close repo
    · exact Or.inr rfl
    · exact Or.inl rfl
  · cases hb : cfg.should_ffcp_auto_postpone repo
    · exact Or.inr rfl
    · exact Or.inl rfl
  · simp [RfcbotConfig.teams_list, RfcbotConfig.team_labels]

/-- C9 witness: the demo configuration loads, and on the unknown key
"random" every query yields its total default within bounds. -/
theorem C9_queries_total_witness :
    ((parseRfcbotConfig demoDocLoad).should_ffcp_auto_close "random" = true ∨
      (parseRfcbotConfig demoDocLoad).should_ffcp_auto_close "random" = false) ∧
    ((parseRfcbotConfig demoDocLoad).should_ffcp_auto_postpone "random" = true ∨
      (parseRfcbotConfig demoDocLoad).should_ffcp_auto_postpone "random" = false) ∧
    ((parseRfcbotConfig demoDocLoad).prohibited_issue_reactions "random").length ≤ 6 ∧
    ((parseRfcbotConfig demoDocLoad).prohibited_comment_reactions "random").length ≤ 6 ∧
    (parseRfcbotConfig demoDocLoad).teams_list.length =
      (parseRfcbotConfig demoDocLoad).team_labels.length :=
  C9_queries_total demoStore (some demoDocLoad)
    (parseRfcbotConfig demoDocLoad) rfl "random"

end Rfcbot
